import Mathlib

/-!
Verification of the `llm_judge` repository's comparison core:
`src/llm_judge/utils/json_extractor.py` (class `JSONExtractor`) and
`src/llm_judge/utils/comparator.py` (classes `TextComparator`,
`BatchComparator`, dataclass `ComparisonResult`).

Modelling conventions (shallow embedding of the Python code):
* Python `str` is modelled as `List Char` (named `PyStr`); character
  predicates (lower-casing, whitespace) are modelled on the ASCII range.
* Python floats are modelled as rationals `ℚ`; machine-float rounding is
  outside the embedding.  For the same reason JSON number literals are
  modelled as integers: a fractional JSON literal is outside the model.
* `json.loads` / `json.dumps` (standard library) are modelled by the
  executable parser/serializer below, following the strict JSON grammar
  that `json.loads` implements (leading/trailing JSON whitespace,
  `true`/`false`/`null`, escape sequences, duplicate object keys resolved
  by in-place overwrite as in Python `dict`).
* External libraries whose outputs the code only passes through
  (`fuzzywuzzy.fuzz`, `difflib`, the LLM judge client) are modelled as
  injected function-valued capabilities.
* Exceptions are modelled with `Except`; the text of interpolated Python
  exception objects (`str(e)`) inside error messages is abstracted to the
  surrounding message template.
-/

/-- Python `str` values, modelled as lists of characters. -/
abbrev PyStr := List Char

/-- ASCII white-space set used by `str.split()` / `str.strip()` and the
regex `\s` class (the Unicode cases are outside the ASCII model). -/
def isPyWs (c : Char) : Bool :=
  " \t\n\r\x0b\x0c".toList.contains c

/-- Python `str.strip()` (ASCII white-space model). -/
def pyStrip (s : PyStr) : PyStr :=
  ((s.dropWhile isPyWs).reverse.dropWhile isPyWs).reverse

/-- Worker for `pySplitWs`: `cur` is the word currently being read,
in reverse character order. -/
def pySplitWsAux : PyStr → PyStr → List PyStr
  | [], cur => if cur = [] then [] else [cur.reverse]
  | c :: t, cur =>
    if isPyWs c then
      if cur = [] then pySplitWsAux t [] else cur.reverse :: pySplitWsAux t []
    else pySplitWsAux t (c :: cur)

/-- Split on runs of white-space discarding empty fields: Python `str.split()`. -/
def pySplitWs (s : PyStr) : List PyStr := pySplitWsAux s []

/-- `' '.join parts` for Python `str.join`. -/
def joinSpace : List PyStr → PyStr
  | [] => []
  | [w] => w
  | w :: rest => w ++ ' ' :: joinSpace rest

/-- Python `str.lower()` (ASCII model of the Unicode lowering). -/
def pyLower (s : PyStr) : PyStr := s.map Char.toLower

/-- First index at which `needle` occurs in `hay` (Python `str.find`, and
`needle in hay` is `(substrPos needle hay).isSome`). -/
def substrPos (needle : PyStr) : PyStr → Option Nat
  | [] => if needle.isPrefixOf ([] : PyStr) then some 0 else none
  | c :: t =>
    if needle.isPrefixOf (c :: t) then some 0
    else (substrPos needle t).map (· + 1)

/-- Decimal digits of a natural number (fuel-driven; `n + 1` fuel always
suffices since `n / 10 < n` for `n ≥ 10`). -/
def natDigitsAux : Nat → Nat → PyStr
  | 0, _ => []
  | f + 1, n =>
    if n < 10 then [Char.ofNat (48 + n)]
    else natDigitsAux f (n / 10) ++ [Char.ofNat (48 + n % 10)]

/-- Python `str(n)` for a non-negative integer. -/
def natRepr (n : Nat) : PyStr := natDigitsAux (n + 1) n

/-- Python `str(n)` for an integer (matches `repr`/`str` of Python `int`). -/
def intRepr : Int → PyStr
  | .ofNat n => natRepr n
  | .negSucc m => '-' :: natRepr (m + 1)

def isDigitCh (c : Char) : Bool := '0' ≤ c ∧ c ≤ '9'

def digitsToNat (ds : PyStr) : Nat :=
  ds.foldl (fun acc c => acc * 10 + (c.toNat - 48)) 0

/-- Python `int(s)` on a string: optional sign around a non-empty digit
run, surrounding white-space allowed (underscore separators are outside
the model).  `none` models the `ValueError`. -/
def pyInt (s : PyStr) : Option Int :=
  let t := pyStrip s
  let (sign, body) : Int × PyStr :=
    match t with
    | '-' :: r => (-1, r)
    | '+' :: r => (1, r)
    | _ => (1, t)
  if body ≠ [] ∧ body.all isDigitCh then some (sign * digitsToNat body) else none

/-- Python `float(s)` on a string, modelled exactly on ℚ: optional sign,
digits with an optional fractional part (exponents, `inf`, `nan` and
binary-float rounding are outside the model).  `none` models `ValueError`. -/
def parseFloatStr (s : PyStr) : Option ℚ :=
  let t := pyStrip s
  let (sign, body) : ℚ × PyStr :=
    match t with
    | '-' :: r => (-1, r)
    | '+' :: r => (1, r)
    | _ => (1, t)
  let intPart := body.takeWhile isDigitCh
  match body.drop intPart.length with
  | [] => if intPart ≠ [] then some (sign * digitsToNat intPart) else none
  | '.' :: frac =>
    if frac.all isDigitCh ∧ (intPart ≠ [] ∨ frac ≠ []) then
      some (sign * ((digitsToNat intPart : ℚ) +
        (digitsToNat frac : ℚ) / (10 ^ frac.length : ℚ)))
    else none
  | _ => none

mutual

/-- Parsed JSON values as produced by `json.loads` (numbers restricted to
integers, see the module comment).  Arrays and objects are separate
mutual inductives so that all recursion over values is structural. -/
inductive Json where
  | null : Json
  | bool : Bool → Json
  | num : Int → Json
  | str : PyStr → Json
  | arr : JsonArr → Json
  | obj : JsonObj → Json

/-- A Python `list` of JSON values. -/
inductive JsonArr where
  | nil : JsonArr
  | cons : Json → JsonArr → JsonArr

/-- A Python `dict` with string keys, in insertion order. -/
inductive JsonObj where
  | nil : JsonObj
  | cons : PyStr → Json → JsonObj → JsonObj

end

def JsonArr.push : JsonArr → Json → JsonArr
  | .nil, v => .cons v .nil
  | .cons h t, v => .cons h (t.push v)

def JsonArr.length : JsonArr → Nat
  | .nil => 0
  | .cons _ t => 1 + t.length

/-- `list.__getitem__` with a non-negative index. -/
def JsonArr.get? : JsonArr → Nat → Option Json
  | .nil, _ => none
  | .cons h _, 0 => some h
  | .cons _ t, n + 1 => t.get? n

def JsonObj.length : JsonObj → Nat
  | .nil => 0
  | .cons _ _ t => 1 + t.length

/-- Python `dict` insertion used while parsing an object: an existing key
keeps its position and gets the new value, a new key is appended. -/
def objInsert (k : PyStr) (v : Json) : JsonObj → JsonObj
  | .nil => .cons k v .nil
  | .cons k' v' t => if k' = k then .cons k v t else .cons k' v' (objInsert k v t)

/-- Python `dict.__getitem__` / `dict.get` lookup. -/
def objGet (k : PyStr) : JsonObj → Option Json
  | .nil => none
  | .cons k' v' t => if k' = k then some v' else objGet k t

/-- JSON white-space skipped by `json.loads` (space, tab, newline, return). -/
def isJsonWs (c : Char) : Bool := " \t\n\r".toList.contains c

def skipWs (s : PyStr) : PyStr := s.dropWhile isJsonWs

def hexVal (c : Char) : Option Nat :=
  if '0' ≤ c ∧ c ≤ '9' then some (c.toNat - 48)
  else if 'a' ≤ c ∧ c ≤ 'f' then some (c.toNat - 87)
  else if 'A' ≤ c ∧ c ≤ 'F' then some (c.toNat - 55)
  else none

/-- Body of a JSON string literal, after the opening quote.  Implements
the escape sequences of the JSON grammar; a raw control character is a
parse error (`json.loads` strict mode); surrogate-pair combining of
`\uXXXX` escapes is outside the model. -/
def parseStringBody : PyStr → Option (PyStr × PyStr)
  | [] => none
  | '"' :: r => some ([], r)
  | '\\' :: e :: r =>
    match e with
    | '"' => (parseStringBody r).map (fun (s, rest) => ('"' :: s, rest))
    | '\\' => (parseStringBody r).map (fun (s, rest) => ('\\' :: s, rest))
    | '/' => (parseStringBody r).map (fun (s, rest) => ('/' :: s, rest))
    | 'b' => (parseStringBody r).map (fun (s, rest) => ('\x08' :: s, rest))
    | 'f' => (parseStringBody r).map (fun (s, rest) => ('\x0c' :: s, rest))
    | 'n' => (parseStringBody r).map (fun (s, rest) => ('\n' :: s, rest))
    | 'r' => (parseStringBody r).map (fun (s, rest) => ('\r' :: s, rest))
    | 't' => (parseStringBody r).map (fun (s, rest) => ('\t' :: s, rest))
    | 'u' =>
      match r with
      | h1 :: h2 :: h3 :: h4 :: r' =>
        match hexVal h1, hexVal h2, hexVal h3, hexVal h4 with
        | some a, some b, some c, some d =>
          (parseStringBody r').map
            (fun (s, rest) => (Char.ofNat (a * 4096 + b * 256 + c * 16 + d) :: s, rest))
        | _, _, _, _ => none
      | _ => none
    | _ => none
  | c :: r =>
    if c.toNat < 32 then none
    else (parseStringBody r).map (fun (s, rest) => (c :: s, rest))

/-- JSON number literal restricted to integers: `-?(0|[1-9][0-9]*)` not
followed by `.`/`e`/`E` (fractional and exponent literals are outside the
model, see the module comment). -/
def parseIntLit (s : PyStr) : Option (Int × PyStr) :=
  let (sign, body) : Int × PyStr :=
    match s with
    | '-' :: r => (-1, r)
    | _ => (1, s)
  let ds := body.takeWhile isDigitCh
  let rest := body.drop ds.length
  if ds = [] then none
  else if ds.length > 1 ∧ ds.headI = '0' then none
  else
    match rest with
    | '.' :: _ => none
    | 'e' :: _ => none
    | 'E' :: _ => none
    | _ => some (sign * digitsToNat ds, rest)

mutual

/-- One JSON value at the head of the input (fuel-driven recursion; every
recursive call first consumes at least one character, so fuel
`input length + 1` always suffices). -/
def parseVal : Nat → PyStr → Option (Json × PyStr)
  | 0, _ => none
  | f + 1, s =>
    match s with
    | [] => none
    | '"' :: r => (parseStringBody r).map (fun (str, rest) => (Json.str str, rest))
    | '{' :: r =>
      match skipWs r with
      | '}' :: rest => some (Json.obj .nil, rest)
      | r' => parseMembers f .nil r'
    | '[' :: r =>
      match skipWs r with
      | ']' :: rest => some (Json.arr .nil, rest)
      | r' => parseElems f .nil r'
    | c :: _ =>
      if "true".toList.isPrefixOf s then some (Json.bool true, s.drop 4)
      else if "false".toList.isPrefixOf s then some (Json.bool false, s.drop 5)
      else if "null".toList.isPrefixOf s then some (Json.null, s.drop 4)
      else if c = '-' ∨ isDigitCh c then
        (parseIntLit s).map (fun (n, rest) => (Json.num n, rest))
      else none
termination_by structural fuel => fuel

/-- Remaining members of an object (after `{`, input at a key). -/
def parseMembers : Nat → JsonObj → PyStr → Option (Json × PyStr)
  | 0, _, _ => none
  | f + 1, acc, s =>
    match s with
    | '"' :: r =>
      match parseStringBody r with
      | none => none
      | some (key, r1) =>
        match skipWs r1 with
        | ':' :: r2 =>
          match parseVal f (skipWs r2) with
          | none => none
          | some (v, r3) =>
            let acc' := objInsert key v acc
            match skipWs r3 with
            | ',' :: r4 => parseMembers f acc' (skipWs r4)
            | '}' :: r4 => some (Json.obj acc', r4)
            | _ => none
        | _ => none
    | _ => none
termination_by structural fuel => fuel

/-- Remaining elements of an array (after `[`, input at a value). -/
def parseElems : Nat → JsonArr → PyStr → Option (Json × PyStr)
  | 0, _, _ => none
  | f + 1, acc, s =>
    match parseVal f s with
    | none => none
    | some (v, r) =>
      match skipWs r with
      | ',' :: r' => parseElems f (acc.push v) (skipWs r')
      | ']' :: r' => some (Json.arr (acc.push v), r')
      | _ => none
termination_by structural fuel => fuel

end

/-- `json.loads`: a single JSON document with surrounding white-space;
`none` models `json.JSONDecodeError`. -/
def parseJson (s : PyStr) : Option Json :=
  match parseVal (s.length + 1) (skipWs s) with
  | some (v, rest) => if skipWs rest = [] then some v else none
  | none => none

/-- String escaping of `json.dumps(..., ensure_ascii=False)`, one
character at a time: quote, backslash and control characters are
escaped, everything else is kept. -/
def dumpEscapeChar (c : Char) : PyStr :=
  if c = '"' then "\\\"".toList
  else if c = '\\' then "\\\\".toList
  else if c = '\n' then "\\n".toList
  else if c = '\t' then "\\t".toList
  else if c = '\r' then "\\r".toList
  else if c = '\x08' then "\\b".toList
  else if c = '\x0c' then "\\f".toList
  else if c.toNat < 32 then
    let lo := c.toNat % 16
    let hi := c.toNat / 16
    "\\u00".toList ++
      [Char.ofNat (if hi < 10 then 48 + hi else 87 + hi),
       Char.ofNat (if lo < 10 then 48 + lo else 87 + lo)]
  else [c]

def dumpEscape (s : PyStr) : PyStr := s.flatMap dumpEscapeChar

mutual

/-- `json.dumps(v, ensure_ascii=False, separators=(',', ':'))`: compact
serialization, object keys in their stored order. -/
def dumps : Json → PyStr
  | .null => "null".toList
  | .bool true => "true".toList
  | .bool false => "false".toList
  | .num n => intRepr n
  | .str s => '"' :: dumpEscape s ++ ['"']
  | .arr l => '[' :: dumpsArr l ++ [']']
  | .obj o => '{' :: dumpsObj o ++ ['}']

def dumpsArr : JsonArr → PyStr
  | .nil => []
  | .cons v .nil => dumps v
  | .cons v rest => dumps v ++ ',' :: dumpsArr rest

def dumpsObj : JsonObj → PyStr
  | .nil => []
  | .cons k v .nil => '"' :: dumpEscape k ++ '"' :: ':' :: dumps v
  | .cons k v rest => '"' :: dumpEscape k ++ '"' :: ':' :: dumps v ++ ',' :: dumpsObj rest

end

/-- Python `str()` applied to a scalar obtained from `json.loads`:
`str(None) = "None"`, `str(True) = "True"`, `str(False) = "False"`,
integers print in decimal, a string is itself. -/
def pyStrOf : Json → PyStr
  | .null => "None".toList
  | .bool true => "True".toList
  | .bool false => "False".toList
  | .num n => intRepr n
  | .str s => s
  | .arr l => dumps (.arr l)   -- not reached on scalars; kept total
  | .obj o => dumps (.obj o)

mutual

/-- Python `==` on parsed JSON values: dictionaries compare as finite
maps, lists pointwise (the Python quirk `True == 1` is outside the
model). -/
def jsonEq : Json → Json → Bool
  | .null, .null => true
  | .bool x, .bool y => x = y
  | .num x, .num y => x = y
  | .str x, .str y => x = y
  | .arr x, .arr y => jsonArrEq x y
  | .obj x, .obj y => x.length = y.length && jsonObjSub x y
  | _, _ => false

def jsonArrEq : JsonArr → JsonArr → Bool
  | .nil, .nil => true
  | .cons u us, .cons v vs => jsonEq u v && jsonArrEq us vs
  | _, _ => false

/-- Every member of the first dictionary maps, in the second, to an equal
value (with equal lengths this is Python `dict` equality). -/
def jsonObjSub : JsonObj → JsonObj → Bool
  | .nil, _ => true
  | .cons k v t, y =>
    (match objGet k y with
      | some w => jsonEq v w
      | none => false) && jsonObjSub t y

end

/-! ## `json_extractor.py`: class `JSONExtractor` -/

def tickTickTick : PyStr := ['`', '`', '`']

/-- Lazy part of the fenced-block regex: the shortest capture such that
the remaining text begins the closing `\n?` + three-backtick delimiter
(`([\s\S]*?)\n?` followed by the delimiter). -/
def mdFindClose (s : PyStr) : Option PyStr :=
  if ('\n' :: tickTickTick).isPrefixOf s ∨ tickTickTick.isPrefixOf s then some []
  else
    match s with
    | [] => none
    | c :: t => (mdFindClose t).map (c :: ·)

/-- One attempt of the fenced-block regex with the opening three
backticks already consumed: the optional case-insensitive `json` tag,
then greedy `\s*` (after which the greedy `\n?` is necessarily empty),
then the lazy capture up to the closing delimiter.  The greedy choices
never need backtracking here because neither the tag nor white-space can
contain a backtick. -/
def mdAttempt (r : PyStr) : Option PyStr :=
  let r1 := if pyLower (r.take 4) = ['j', 's', 'o', 'n'] then r.drop 4 else r
  mdFindClose (r1.dropWhile isPyWs)

/-- `re.search` for the fenced-block pattern: the left-most position with
a complete match wins; returns the captured group. -/
def mdSearch : PyStr → Option PyStr
  | [] => none
  | c :: t =>
    if tickTickTick.isPrefixOf (c :: t) then
      match mdAttempt ((c :: t).drop 3) with
      | some cap => some cap
      | none => mdSearch t
    else mdSearch t

/-- `_extract_json_from_markdown` (defined identically in `JSONExtractor`
and `TextComparator`): the captured fenced block stripped, else the
stripped input. -/
def extract_json_from_markdown (text : PyStr) : PyStr :=
  match mdSearch text with
  | some cap => pyStrip cap
  | none => pyStrip text

/-- `JSONExtractor._parse_json_safely`: direct parse, else parse of the
fenced-block extraction; `none` is the logged-and-swallowed failure. -/
def parse_json_safely (text : PyStr) : Option Json :=
  match parseJson text with
  | some v => some v
  | none => parseJson (extract_json_from_markdown text)

/-- Character loop of `JSONExtractor._split_path`; `cur` is the pending
`current` accumulator. -/
def splitPathAux : PyStr → PyStr → Bool → List PyStr
  | [], cur, _ => if cur = [] then [] else [cur]
  | ch :: rest, cur, inBracket =>
    if ch = '[' then
      (if cur ≠ [] then [cur] else []) ++ splitPathAux rest ['['] true
    else if ch = ']' then
      (cur ++ [']']) :: splitPathAux rest [] false
    else if ch = '.' ∧ !inBracket then
      (if cur ≠ [] then [cur] else []) ++ splitPathAux rest [] inBracket
    else splitPathAux rest (cur ++ [ch]) inBracket

def split_path (p : PyStr) : List PyStr := splitPathAux p [] false

/-- `current[field]` for a string subscript: only a `dict` supports it;
`KeyError` on a missing key and `TypeError` on any other value are both
modelled as `none` (the walk re-raises them uniformly). -/
def pyGetItemStr (cur : Json) (field : PyStr) : Option Json :=
  match cur with
  | .obj o => objGet field o
  | _ => none

/-- `current[index]` for an integer subscript: a `list` indexes with the
Python negative-index rule, a `str` yields the character as a one-char
string, anything else raises (`none`). -/
def pyGetItemInt (cur : Json) (i : Int) : Option Json :=
  match cur with
  | .arr l =>
    let n : Int := l.length
    let j := if i < 0 then i + n else i
    if 0 ≤ j ∧ j < n then l.get? j.toNat else none
  | .str s =>
    let n : Int := s.length
    let j := if i < 0 then i + n else i
    if 0 ≤ j ∧ j < n then (s.get? j.toNat).map (fun c => Json.str [c]) else none
  | _ => none

/-- Python `rstrip("]")`. -/
def rstripBracket (s : PyStr) : PyStr :=
  (s.reverse.dropWhile (· = ']')).reverse

/-- The `for part in parts` loop of `_extract_by_path`; `none` models the
re-raised exception of its `except` clause.  On `[*]` over a `list` the
code `return current` leaves the whole walk early, skipping any
remaining parts. -/
def walkParts : Json → List PyStr → Option Json
  | cur, [] => some cur
  | cur, part :: rest =>
    if part.getLast? = some ']' then
      match substrPos ['['] part with
      | none => none    -- 2-way unpacking of `part.split("[", 1)` raises ValueError
      | some p =>
        let field := part.take p
        let indexPart := rstripBracket (part.drop (p + 1))
        match (if field ≠ [] then pyGetItemStr cur field else some cur) with
        | none => none
        | some cur1 =>
          if indexPart = ['*'] then
            match cur1 with
            | .arr l => some (.arr l)   -- early `return current`
            | _ => none                 -- ValueError: `[*]` on a non-list
          else
            match pyInt indexPart with
            | none => none              -- ValueError from `int(index_part)`
            | some i =>
              match pyGetItemInt cur1 i with
              | none => none
              | some cur2 => walkParts cur2 rest
    else
      match pyGetItemStr cur part with
      | none => none
      | some cur1 => walkParts cur1 rest

/-- `JSONExtractor._extract_by_path`. -/
def extract_by_path (data : Json) (path : PyStr) : Option Json :=
  if path = ['$'] ∨ path = [] then some data
  else
    let p :=
      if ['$', '.'].isPrefixOf path then path.drop 2
      else if ['$'].isPrefixOf path then path.drop 1
      else path
    walkParts data (split_path p)

/-- `JSONExtractor._has_nested_extraction`: `'.$' in path`. -/
def has_nested_extraction (path : PyStr) : Bool :=
  (substrPos ['.', '$'] path).isSome

def notBrace (c : Char) : Bool := c ≠ '{' ∧ c ≠ '}'

/-- Matcher for the tail `(?:\x7b[^\x7b\x7d]*\x7d[^\x7b\x7d]*)*\x7d` of the
brace-balanced regex of `_extract_json_string_from_text`, with the
greedy repetition resolved deterministically (the character classes
exclude braces, so no backtracking can rescue a failed iteration).
Returns the consumed text and the rest.  Fuel-driven: every recursive
call consumes at least two characters, so `length + 1` fuel suffices. -/
def braceTailF : Nat → PyStr → Option (PyStr × PyStr)
  | 0, _ => none
  | f + 1, s =>
    match s with
    | '}' :: r => some (['}'], r)
    | '{' :: r =>
      let inner := r.takeWhile notBrace
      match r.drop inner.length with
      | '}' :: r2 =>
        let after := r2.takeWhile notBrace
        match braceTailF f (r2.drop after.length) with
        | some (consumed, rest) =>
          some ('{' :: inner ++ '}' :: after ++ consumed, rest)
        | none => none
      | _ => none
    | _ => none

/-- One full match of the brace-balanced regex starting at a `\x7b`. -/
def braceMatchAt (s : PyStr) : Option (PyStr × PyStr) :=
  match s with
  | '{' :: r =>
    let run := r.takeWhile notBrace
    match braceTailF (r.length + 1) (r.drop run.length) with
    | some (consumed, rest) => some ('{' :: run ++ consumed, rest)
    | none => none
  | _ => none

/-- `re.findall` for the brace-balanced pattern: scan left to right,
non-overlapping matches (fuel-driven: a match consumes at least two
characters and a failure advances one position, so `length + 1`
suffices). -/
def braceFindAllF : Nat → PyStr → List PyStr
  | 0, _ => []
  | _, [] => []
  | f + 1, c :: t =>
    match braceMatchAt (c :: t) with
    | some (m, rest) => m :: braceFindAllF f rest
    | none => braceFindAllF f t

def braceFindAll (s : PyStr) : List PyStr := braceFindAllF (s.length + 1) s

/-- The `for match in matches` loop: first regex match that parses. -/
def firstParsableBrace : List PyStr → Option PyStr
  | [] => none
  | m :: rest => if (parseJson m).isSome then some m else firstParsableBrace rest

/-- `JSONExtractor._extract_json_string_from_text`: direct parse, else a
parsing fenced block (when the markdown extraction changed the text),
else the first parsing brace-balanced regex match, else the input. -/
def extract_json_string_from_text (text : PyStr) : PyStr :=
  if (parseJson text).isSome then text
  else
    let md := extract_json_from_markdown text
    if md ≠ pyStrip text ∧ (parseJson md).isSome then md
    else
      match firstParsableBrace (braceFindAll text) with
      | some m => m
      | none => text

/-- The per-instance configuration of `JSONExtractor.__init__`
(`log_extraction_failures` only drives logging and never a returned
value; it is carried for completeness). -/
structure JSONExtractor where
  extraction_failure_mode : PyStr := "ignore".toList
  log_extraction_failures : Bool := true

/-- Message of `extract`'s parse-failure call (line 166). -/
def parseFailMsg : PyStr := "无法解析JSON内容".toList

/-- Message template of `extract`'s path-failure call (line 180); the
interpolated exception text is abstracted away. -/
def pathFailMsg (p : PyStr) : PyStr :=
  "提取路径 '".toList ++ p ++ "' 失败".toList

/-- Message template of `_extract_nested_json`'s failure call (line 293)
with the inner exception text appended. -/
def nestedFailMsg (p e : PyStr) : PyStr :=
  "嵌套提取路径 '".toList ++ p ++ "' 失败: ".toList ++ e

/-- `JSONExtractor._handle_extraction_failure`: raise on `"error"`, empty
string on `"empty"`, original content otherwise (`"ignore"` correct and
default). -/
def JSONExtractor.handle_extraction_failure (self : JSONExtractor)
    (msg content : PyStr) : Except PyStr PyStr :=
  if self.extraction_failure_mode = "error".toList then .error msg
  else if self.extraction_failure_mode = "empty".toList then .ok []
  else .ok content

/-- The single-stage body of `extract` (lines 161-181: parse, walk the
path, serialize).  `extract` reaches it exactly when the path is
non-trivial and `.$`-free; `_extract_nested_json`'s `nested_pos == -1`
branch (unreachable from `extract`) calls `extract` on the same
`.$`-free path and therefore also runs exactly this body. -/
def JSONExtractor.extractSingle (self : JSONExtractor) (content path : PyStr) :
    Except PyStr PyStr :=
  match parse_json_safely content with
  | none => self.handle_extraction_failure parseFailMsg content
  | some data =>
    match extract_by_path data path with
    | none => self.handle_extraction_failure (pathFailMsg path) content
    | some v =>
      match v with
      | .obj o => .ok (dumps (.obj o))   -- isinstance(.., (dict, list)): compact dumps
      | .arr l => .ok (dumps (.arr l))
      | v => .ok (pyStrOf v)             -- else: str(extracted_data)

/-- `JSONExtractor.extract` together with `_extract_nested_json`
(lines 137-181 and 250-294), the recursion made explicit through a
recursion-depth fuel; `none` is fuel exhaustion, which never happens for
fuel `> path.length` (see `extract_terminates_c9`) because each nesting
level strictly shrinks the remaining path. -/
def JSONExtractor.extractF (self : JSONExtractor) :
    Nat → PyStr → PyStr → Option (Except PyStr PyStr)
  | 0, _, _ => none
  | f + 1, content, path =>
    -- `if not extract_path or extract_path == "$" or extract_path == ""`
    if path = [] ∨ path = ['$'] then some (.ok content)
    else
      match substrPos ['.', '$'] path with   -- `_has_nested_extraction` / `.find('.$')`
      | none => some (self.extractSingle content path)
      | some pos =>
        -- `_extract_nested_json`, try block; errors of either stage are
        -- caught by its `except` and fed to `_handle_extraction_failure`
        let firstPath := path.take pos
        let remaining := path.drop (pos + 2)
        let stage1 : Option (Except PyStr PyStr) :=
          if firstPath = [] then some (.ok content)
          else self.extractF f content firstPath
        match stage1 with
        | none => none
        | some (.error e) =>
          some (self.handle_extraction_failure (nestedFailMsg path e) content)
        | some (.ok intermediate) =>
          if remaining = [] ∨ remaining = ['$'] then
            some (.ok (extract_json_string_from_text intermediate))
          else
            match self.extractF f (extract_json_string_from_text intermediate)
                ('$' :: remaining) with
            | none => none
            | some (.error e) =>
              some (self.handle_extraction_failure (nestedFailMsg path e) content)
            | some (.ok r) => some (.ok r)

/-- `JSONExtractor.extract`: the fuelled model at always-sufficient fuel.
The default is never used (`extract_terminates_c9`). -/
def JSONExtractor.extract (self : JSONExtractor) (content path : PyStr) :
    Except PyStr PyStr :=
  (self.extractF (path.length + 1) content path).getD (.ok content)

/-! ## `comparator.py`: `ComparisonResult`, `TextComparator`, `BatchComparator` -/

/-- Enum `ComparisonType` (the `CUSTOM` member exists but no comparator
implements it, line 393's `else: raise ValueError`). -/
inductive ComparisonType where
  | exact | fuzzy | contains | json | llm | custom
deriving DecidableEq

/-- The heterogeneous values stored in `result.details` (`Dict[str, Any]`). -/
inductive DV where
  | dvStr : PyStr → DV
  | dvQ : ℚ → DV
  | dvNat : Nat → DV
  | dvJson : Json → DV

/-- Python `dict.__setitem__` / one key of `dict.update` on a details
mapping: an existing key keeps its position and gets the new value. -/
def updAssoc (k : PyStr) (v : DV) : List (PyStr × DV) → List (PyStr × DV)
  | [] => [(k, v)]
  | (k', v') :: t => if k' = k then (k, v) :: t else (k', v') :: updAssoc k v t

/-- Lookup in a details mapping. -/
def assocGet (k : PyStr) : List (PyStr × DV) → Option DV
  | [] => none
  | (k', v') :: t => if k' = k then some v' else assocGet k t

/-- Dataclass `ComparisonResult` with its field defaults. -/
structure ComparisonResult where
  is_match : Bool
  similarity_score : ℚ
  comparison_type : ComparisonType
  expected : PyStr
  actual : PyStr
  diff : Option PyStr := none
  details : Option (List (PyStr × DV)) := none
  error_message : Option PyStr := none

/-- The response object of `BaseLLMClient.generate`
(`llm_client.py`: fields `content`, `error`, `model`, `response_time`). -/
structure LLMResponse where
  content : PyStr
  error : Option PyStr := none
  model : PyStr := []
  response_time : ℚ := 0

/-- `TextComparator.__init__` state plus the external capabilities the
methods call through: the four `fuzzywuzzy.fuzz` scorers (contract:
integer scores in `[0, 100]`), the `difflib.unified_diff` glue of
`exact_match`/`fuzzy_match` (applied to the two normalized texts), the
analogous indent-2-dumps diff of `json_match`, and the optional judge
client's `generate` modelled as a pure function of the prompt. -/
structure TextComparator where
  fuzzy_threshold : ℚ := 8 / 10
  ignore_case : Bool := true
  ignore_whitespace : Bool := true
  json_extractor : JSONExtractor := {}
  llm_client : Option (PyStr → LLMResponse) := none
  ratioFn : PyStr → PyStr → ℚ := fun _ _ => 0
  pRatioFn : PyStr → PyStr → ℚ := fun _ _ => 0
  tSortRatioFn : PyStr → PyStr → ℚ := fun _ _ => 0
  tSetRatioFn : PyStr → PyStr → ℚ := fun _ _ => 0
  diffFn : PyStr → PyStr → PyStr := fun _ _ => []
  jsonDiffFn : Json → Json → PyStr := fun _ _ => []

/-- Python truthiness of an optional string (`if response.error:`,
`if result.error_message:`): `None` and `""` are falsy. -/
def pyTruthyStr : Option PyStr → Bool
  | none => false
  | some s => !s.isEmpty

/-- `TextComparator._normalize_text` (the `str()` coercion for non-string
input is outside the model: inputs here are strings). -/
def TextComparator.normalize_text (self : TextComparator) (text : PyStr) : PyStr :=
  let t1 := if self.ignore_case then pyLower text else text
  if self.ignore_whitespace then joinSpace (pySplitWs t1) else t1

/-- The error-result shape shared by every failure return in
`comparator.py`: non-match, zero score, a message, default `diff` and
`details`. -/
def errResult (ct : ComparisonType) (expected actual msg : PyStr) : ComparisonResult :=
  { is_match := false, similarity_score := 0, comparison_type := ct,
    expected := expected, actual := actual, error_message := some msg }

/-- `TextComparator.exact_match`. -/
def TextComparator.exact_match (self : TextComparator) (expected actual : PyStr) :
    ComparisonResult :=
  let en := self.normalize_text expected
  let an := self.normalize_text actual
  { is_match := decide (en = an),
    similarity_score := if en = an then 1 else 0,
    comparison_type := .exact,
    expected := expected, actual := actual,
    diff := if en = an then none else some (self.diffFn en an) }

/-- `TextComparator.fuzzy_match`: best of the four fuzz scores, each
normalized from `[0, 100]` to `[0, 1]`. -/
def TextComparator.fuzzy_match (self : TextComparator) (expected actual : PyStr) :
    ComparisonResult :=
  let en := self.normalize_text expected
  let an := self.normalize_text actual
  let r := self.ratioFn en an / 100
  let pr := self.pRatioFn en an / 100
  let tsr := self.tSortRatioFn en an / 100
  let tser := self.tSetRatioFn en an / 100
  let score := max (max (max r pr) tsr) tser
  { is_match := decide (self.fuzzy_threshold ≤ score),
    similarity_score := score,
    comparison_type := .fuzzy,
    expected := expected, actual := actual,
    diff := if self.fuzzy_threshold ≤ score then none else some (self.diffFn en an),
    details := some [
      ("ratio".toList, .dvQ r),
      ("partial_ratio".toList, .dvQ pr),
      ("token_sort_ratio".toList, .dvQ tsr),
      ("token_set_ratio".toList, .dvQ tser),
      ("threshold".toList, .dvQ self.fuzzy_threshold)] }

/-- `TextComparator.contains_match`: normalized substring test. -/
def TextComparator.contains_match (self : TextComparator) (expected actual : PyStr) :
    ComparisonResult :=
  let en := self.normalize_text expected
  let an := self.normalize_text actual
  let im := (substrPos en an).isSome   -- Python `expected_norm in actual_norm`
  { is_match := im,
    similarity_score := if im then 1 else 0,
    comparison_type := .contains,
    expected := expected, actual := actual,
    details := some [("contains_check".toList,
      .dvStr ('\'' :: en ++ "' in '".toList ++ an ++ ['\'']))] }

/-- `TextComparator.json_match`: parse both sides (the actual side after
markdown-fence extraction) and compare as Python values; a
`JSONDecodeError` on either side yields the error result (the
interpolated exception text is abstracted away). -/
def TextComparator.json_match (self : TextComparator) (expected actual : PyStr) :
    ComparisonResult :=
  match parseJson expected with
  | none => errResult .json expected actual "JSON解析错误".toList
  | some ej =>
    match parseJson (extract_json_from_markdown actual) with
    | none => errResult .json expected actual "JSON解析错误".toList
    | some aj =>
      let im := jsonEq ej aj
      { is_match := im,
        similarity_score := if im then 1 else 0,
        comparison_type := .json,
        expected := expected, actual := actual,
        diff := if im then none else some (self.jsonDiffFn ej aj) }

/-- The evaluation prompt `llm_match` builds (f-string of lines 273-294). -/
def llmPrompt (expected actual : PyStr) : PyStr :=
  "请评估以下两个文本的语义相似度，并给出0-100的分数。\n\n期望文本：\n".toList
  ++ expected
  ++ "\n\n实际文本：\n".toList
  ++ actual
  ++ "\n\n请按以下JSON格式回复：\n\x7b\n    \"similarity_score\": <0-100的数字>,\n    \"reasoning\": \"<评估理由>\"\n\x7d\n\n评估标准：\n- 90-100分：语义完全一致或高度相似\n- 70-89分：语义基本一致，有轻微差异\n- 50-69分：语义部分相似，有明显差异\n- 30-49分：语义有一定关联，但差异较大\n- 0-29分：语义不相关或完全不同\n\n请只返回JSON格式的结果，不要包含其他内容。".toList

/-- The two exception classes Python `float()` can raise here. -/
inductive PyFloatErr where
  | valueError   -- unparsable string: caught by the inner `except` tuple
  | typeError    -- None / list / dict: falls to the outer `except Exception`

/-- Python `float()` applied to a value from `json.loads`. -/
def pyFloat : Json → Except PyFloatErr ℚ
  | .num n => .ok n
  | .bool b => .ok (if b then 1 else 0)
  | .str s =>
    match parseFloatStr s with
    | some q => .ok q
    | none => .error .valueError
  | .null => .error .typeError
  | .arr _ => .error .typeError
  | .obj _ => .error .typeError

/-- `TextComparator.llm_match` (lines 259-357).  The judge call is the
injected pure `generate`; the decision threshold is always the
comparator's own `fuzzy_threshold`.  A non-dict reply (`.get` raising
`AttributeError`) and a `TypeError` from `float()` fall to the outer
`except Exception`; exception texts are abstracted away. -/
def TextComparator.llm_match (self : TextComparator) (expected actual : PyStr) :
    ComparisonResult :=
  match self.llm_client with
  | none => errResult .llm expected actual "LLM客户端未配置".toList
  | some generate =>
    let response := generate (llmPrompt expected actual)
    if pyTruthyStr response.error then
      errResult .llm expected actual ("LLM调用错误: ".toList ++ response.error.getD [])
    else
      match parseJson (extract_json_from_markdown response.content) with
      | none =>
        errResult .llm expected actual
          ("LLM响应解析错误，原始响应: ".toList ++ response.content)
      | some llmResult =>
        match llmResult with
        | .obj o =>
          let raw := (objGet "similarity_score".toList o).getD (.num 0)
          match pyFloat raw with
          | .ok q =>
            let score := q / 100
            { is_match := decide (self.fuzzy_threshold ≤ score),
              similarity_score := score,
              comparison_type := .llm,
              expected := expected, actual := actual,
              details := some [
                ("llm_model".toList, .dvStr response.model),
                ("llm_reasoning".toList,
                  .dvJson ((objGet "reasoning".toList o).getD (.str []))),
                ("llm_raw_score".toList, .dvJson raw),
                ("llm_response_time".toList, .dvQ response.response_time),
                ("threshold".toList, .dvQ self.fuzzy_threshold)] }
          | .error .valueError =>
            errResult .llm expected actual
              ("LLM响应解析错误，原始响应: ".toList ++ response.content)
          | .error .typeError =>
            errResult .llm expected actual "TypeError".toList
        | _ => errResult .llm expected actual "AttributeError".toList

/-- The five-plus-one bookkeeping keys `compare` merges into
`result.details` (lines 399-406), in `dict.update` order. -/
def mergeBookkeeping (ep ap ee ea e a : PyStr) (d : List (PyStr × DV)) :
    List (PyStr × DV) :=
  updAssoc "original_actual".toList (.dvStr a)
    (updAssoc "original_expected".toList (.dvStr e)
      (updAssoc "extracted_actual".toList (.dvStr ea)
        (updAssoc "extracted_expected".toList (.dvStr ee)
          (updAssoc "actual_extract_path".toList (.dvStr ap)
            (updAssoc "expected_extract_path".toList (.dvStr ep) d)))))

/-- The mode-dispatch `if/elif` chain of `compare` (lines 383-394); the
unhandled `CUSTOM` member falls into `raise ValueError` (the
interpolated mode name in the message is abstracted away). -/
def TextComparator.dispatch (self : TextComparator) (ct : ComparisonType)
    (ee ea : PyStr) : Except PyStr ComparisonResult :=
  match ct with
  | .exact => .ok (self.exact_match ee ea)
  | .fuzzy => .ok (self.fuzzy_match ee ea)
  | .contains => .ok (self.contains_match ee ea)
  | .json => .ok (self.json_match ee ea)
  | .llm => .ok (self.llm_match ee ea)
  | .custom => .error "不支持的对比类型".toList

/-- The `try` body of `TextComparator.compare` (lines 377-408): extract
both sides, dispatch on the mode, then unconditionally merge the
bookkeeping keys. -/
def TextComparator.compareBody (self : TextComparator) (expected actual : PyStr)
    (ct : ComparisonType) (ep ap : PyStr) : Except PyStr ComparisonResult :=
  match self.json_extractor.extract expected ep with
  | .error e => .error e
  | .ok ee =>
    match self.json_extractor.extract actual ap with
    | .error e => .error e
    | .ok ea =>
      match self.dispatch ct ee ea with
      | .error e => .error e
      | .ok result =>
        .ok { result with
              details := some (mergeBookkeeping ep ap ee ea expected actual
                (result.details.getD [])) }

/-- `TextComparator.compare` (lines 359-419): the top-level `except`
turns any raised exception into an error result carrying the original
(non-extracted) strings and the requested mode. -/
def TextComparator.compare (self : TextComparator) (expected actual : PyStr)
    (ct : ComparisonType := .exact)
    (ep : PyStr := "$".toList) (ap : PyStr := "$".toList) : ComparisonResult :=
  match self.compareBody expected actual ct ep ap with
  | .ok r => r
  | .error e => errResult ct expected actual e

/-- One element of `compare_batch`'s `test_results` list: a dict read
with `.get('expected', '')`, `.get('actual', '')`, `.get('id', ...)`. -/
structure BatchItem where
  expected : Option PyStr := none
  actual : Option PyStr := none
  id : Option PyStr := none

/-- `BatchComparator` holds its `TextComparator`. -/
structure BatchComparator where
  comparator : TextComparator := {}

/-- `BatchComparator.compare_batch` (lines 428-471).  The per-item
`except` (lines 459-469) only fires on an exception inside the loop
body; `compare` is total in the model (the content of claim C2), so the
handler has no reachable counterpart here. -/
def BatchComparator.compare_batch (self : BatchComparator)
    (test_results : List BatchItem) (ct : ComparisonType := .exact) :
    List ComparisonResult :=
  test_results.enum.map (fun (i, item) =>
    let r := self.comparator.compare (item.expected.getD []) (item.actual.getD []) ct
    let d := updAssoc "test_id".toList
        (.dvStr (item.id.getD ("test_".toList ++ natRepr i)))
        (updAssoc "test_index".toList (.dvNat i) (r.details.getD []))
    { r with details := some d })

def minQList : List ℚ → ℚ
  | [] => 0
  | s :: t => t.foldl min s

def maxQList : List ℚ → ℚ
  | [] => 0
  | s :: t => t.foldl max s

/-- `BatchComparator.get_summary_statistics` (lines 473-501); the mixed
int/float dict values are uniformly rationals in the model.  An empty
input returns the empty dict. -/
def BatchComparator.get_summary_statistics
    (comparison_results : List ComparisonResult) : List (PyStr × ℚ) :=
  match comparison_results with
  | [] => []
  | _ =>
    let total_count := comparison_results.length
    let match_count := (comparison_results.filter (·.is_match)).length
    let error_count :=
      (comparison_results.filter (fun r => pyTruthyStr r.error_message)).length
    let scores := comparison_results.map (·.similarity_score)
    [("total_tests".toList, (total_count : ℚ)),
     ("passed_tests".toList, (match_count : ℚ)),
     ("failed_tests".toList, ((total_count - match_count : Nat) : ℚ)),
     ("error_tests".toList, (error_count : ℚ)),
     ("pass_rate".toList,
       if total_count > 0 then (match_count : ℚ) / (total_count : ℚ) else 0),
     ("average_similarity".toList,
       if scores ≠ [] then scores.sum / (scores.length : ℚ) else 0),
     ("min_similarity".toList, if scores ≠ [] then minQList scores else 0),
     ("max_similarity".toList, if scores ≠ [] then maxQList scores else 0)]

/-! ## Helper lemmas -/

theorem assocGet_updAssoc_self (k : PyStr) (v : DV) (l : List (PyStr × DV)) :
    assocGet k (updAssoc k v l) = some v := by
  induction l with
  | nil => simp [updAssoc, assocGet]
  | cons h t ih =>
    obtain ⟨k', v'⟩ := h
    by_cases hk : k' = k
    · simp [updAssoc, assocGet, hk]
    · simp [updAssoc, assocGet, hk, ih]

theorem assocGet_updAssoc_ne (k k' : PyStr) (v : DV) (l : List (PyStr × DV))
    (h : k ≠ k') : assocGet k (updAssoc k' v l) = assocGet k l := by
  have hne : ¬k' = k := fun hh => h hh.symm
  induction l with
  | nil => simp [updAssoc, assocGet, hne]
  | cons hd t ih =>
    obtain ⟨k'', v''⟩ := hd
    by_cases hk : k'' = k'
    · subst hk
      simp [updAssoc, assocGet, hne]
    · simp only [updAssoc, if_neg hk, assocGet]
      by_cases hk2 : k'' = k
      · simp [hk2]
      · simp [hk2, ih]

theorem substrPos_some_le (needle hay : PyStr) (pos : Nat)
    (h : substrPos needle hay = some pos) :
    needle.length + pos ≤ hay.length := by
  induction hay generalizing pos with
  | nil =>
    by_cases hp : needle.isPrefixOf ([] : PyStr)
    · simp only [substrPos, if_pos hp, Option.some.injEq] at h
      subst h
      have hl := (List.isPrefixOf_iff_prefix.mp hp).length_le
      simpa using hl
    · simp [substrPos, hp] at h
  | cons c t ih =>
    by_cases hp : needle.isPrefixOf (c :: t)
    · simp only [substrPos, if_pos hp, Option.some.injEq] at h
      subst h
      have hl := (List.isPrefixOf_iff_prefix.mp hp).length_le
      simp only [List.length_cons] at hl ⊢
      omega
    · simp only [substrPos, if_neg hp, Option.map_eq_some'] at h
      obtain ⟨p', hp', rfl⟩ := h
      have := ih p' hp'
      simp only [List.length_cons]
      omega

theorem extractF_isSome (self : JSONExtractor) :
    ∀ fuel content path, path.length < fuel →
      (self.extractF fuel content path).isSome = true := by
  intro fuel
  induction fuel with
  | zero => intro c p h; exact absurd h (by omega)
  | succ f ih =>
    intro c p h
    by_cases htriv : p = [] ∨ p = ['$']
    · simp [JSONExtractor.extractF, htriv]
    · cases hsp : substrPos ['.', '$'] p with
      | none => simp [JSONExtractor.extractF, htriv, hsp]
      | some pos =>
        have hle : 2 + pos ≤ p.length := by
          simpa using substrPos_some_le ['.', '$'] p pos hsp
        have hplen : p.length ≤ f := by omega
        simp only [JSONExtractor.extractF, htriv, or_false, if_false, hsp]
        have hstage2 : ∀ inter,
            (if p.drop (pos + 2) = [] ∨ p.drop (pos + 2) = ['$'] then
                some (Except.ok (extract_json_string_from_text inter))
              else
                match self.extractF f (extract_json_string_from_text inter)
                    ('$' :: p.drop (pos + 2)) with
                | none => none
                | some (.error e) =>
                  some (self.handle_extraction_failure (nestedFailMsg p e) c)
                | some (.ok r) => some (.ok r)).isSome = true := by
          intro inter
          by_cases hrem : p.drop (pos + 2) = [] ∨ p.drop (pos + 2) = ['$']
          · rw [if_pos hrem]
            rfl
          · rw [if_neg hrem]
            have hlen2 : ('$' :: p.drop (pos + 2)).length < f := by
              simp only [List.length_cons, List.length_drop]
              omega
            obtain ⟨r2, hr2⟩ := Option.isSome_iff_exists.mp
              (ih (extract_json_string_from_text inter) _ hlen2)
            rw [hr2]
            cases r2 with
            | error e => rfl
            | ok r => rfl
        by_cases hfp : p.take pos = []
        · simpa [hfp] using hstage2 c
        · have hlen1 : (p.take pos).length < f := by
            simp only [List.length_take]
            omega
          obtain ⟨r1, hr1⟩ := Option.isSome_iff_exists.mp (ih c _ hlen1)
          cases r1 with
          | error e => simp [hfp, hr1]
          | ok inter => simpa [hfp, hr1] using hstage2 inter

/-! ## Claim theorems -/

/-- C9: `JSONExtractor.extract` terminates for every finite content
string and every finite path string: recursion-depth fuel exceeding the
path length never runs out, because each nested-extraction step recurses
with `"$" + remainder` (and with the prefix before the `.$` marker),
both strictly shorter than the path containing the marker. -/
theorem extract_terminates_c9 (self : JSONExtractor) (content path : PyStr)
    (fuel : Nat) (hf : path.length < fuel) :
    (self.extractF fuel content path).isSome = true ∧
    (∀ pos, substrPos ['.', '$'] path = some pos →
      ('$' :: path.drop (pos + 2)).length < path.length ∧
      (path.take pos).length < path.length) := by
  refine ⟨extractF_isSome self fuel content path hf, ?_⟩
  intro pos hsp
  have hle : 2 + pos ≤ path.length := by
    simpa using substrPos_some_le ['.', '$'] path pos hsp
  constructor
  · simp only [List.length_cons, List.length_drop]
    omega
  · simp only [List.length_take]
    omega

theorem extract_terminates_c9_witness :
    ((⟨"ignore".toList, true⟩ : JSONExtractor).extractF 9
      "\x7b\"a\":1\x7d".toList "$.a.$.b".toList).isSome = true ∧
    ('$' :: "$.a.$.b".toList.drop (3 + 2)).length < "$.a.$.b".toList.length :=
  ⟨(extract_terminates_c9 ⟨"ignore".toList, true⟩ "\x7b\"a\":1\x7d".toList
      "$.a.$.b".toList 9 (by decide)).1,
   ((extract_terminates_c9 ⟨"ignore".toList, true⟩ "\x7b\"a\":1\x7d".toList
      "$.a.$.b".toList 9 (by decide)).2 3 (by decide)).1⟩

/-- C10: `BatchComparator.get_summary_statistics` on an empty result list
returns the empty mapping, containing no summary key at all. -/
theorem summary_empty_c10 :
    BatchComparator.get_summary_statistics [] = [] ∧
    ∀ k, List.lookup k (BatchComparator.get_summary_statistics []) = none :=
  ⟨rfl, fun _ => rfl⟩

/-- Whether an `Except` models a raised exception. -/
def isErr : Except PyStr PyStr → Bool
  | .error _ => true
  | .ok _ => false

theorem handle_ignore (lg : Bool) (msg content : PyStr) :
    (⟨"ignore".toList, lg⟩ : JSONExtractor).handle_extraction_failure msg content
      = .ok content := by
  simp [JSONExtractor.handle_extraction_failure]

theorem handle_empty (lg : Bool) (msg content : PyStr) :
    (⟨"empty".toList, lg⟩ : JSONExtractor).handle_extraction_failure msg content
      = .ok [] := by
  simp [JSONExtractor.handle_extraction_failure]

theorem handle_error (lg : Bool) (msg content : PyStr) :
    (⟨"error".toList, lg⟩ : JSONExtractor).handle_extraction_failure msg content
      = .error msg := by
  simp [JSONExtractor.handle_extraction_failure]

/-- On a non-trivial `.$`-free path, `extract` runs exactly its
single-stage body. -/
theorem extract_single_of_not_nested (self : JSONExtractor) (content path : PyStr)
    (htriv : ¬(path = [] ∨ path = ['$']))
    (hn : has_nested_extraction path = false) :
    self.extract content path = self.extractSingle content path := by
  have hsp : substrPos ['.', '$'] path = none := by
    cases h : substrPos ['.', '$'] path with
    | none => rfl
    | some p =>
      rw [has_nested_extraction, h] at hn
      simp at hn
  simp [JSONExtractor.extract, JSONExtractor.extractF, htriv, hsp]

def ncContent : PyStr := "\x7b\"a\":\"\x7b\\\"b\\\":1\x7d\"\x7d".toList
def ncPath : PyStr := "$.a.$.missing".toList

/-- C1 counterexample: on the content `{"a":"{\"b\":1}"}` with the nested
path `$.a.$.missing` the extraction fails (mode `error` raises), yet
mode `ignore` returns the intermediate string `{"b":1}` — not the full
original content as the claim states — and mode `empty` returns `""`. -/
theorem extract_failure_modes_c1_cex :
    isErr ((⟨"error".toList, true⟩ : JSONExtractor).extract ncContent ncPath) = true ∧
    (⟨"ignore".toList, true⟩ : JSONExtractor).extract ncContent ncPath
      = .ok "\x7b\"b\":1\x7d".toList ∧
    "\x7b\"b\":1\x7d".toList ≠ ncContent ∧
    (⟨"empty".toList, true⟩ : JSONExtractor).extract ncContent ncPath = .ok [] :=
  ⟨rfl, rfl, by decide, rfl⟩

/-- C1 (amended): whenever extraction fails on a `.$`-free (single-stage)
path, the per-instance failure mode determines the result exactly as the
claim states: `ignore` returns the full original content, `empty`
returns the empty string, `error` raises.  For nested paths the policy
applies stage-wise, so the `ignore` fallback is the failing stage's own
input, which can be an intermediate extracted string rather than the
full original content (`extract_failure_modes_c1_cex`). -/
theorem extract_failure_modes_c1 (content path : PyStr) (lg li le : Bool)
    (hn : has_nested_extraction path = false)
    (hfail : isErr ((⟨"error".toList, lg⟩ : JSONExtractor).extract content path)
      = true) :
    (⟨"ignore".toList, li⟩ : JSONExtractor).extract content path = .ok content ∧
    (⟨"empty".toList, le⟩ : JSONExtractor).extract content path = .ok [] ∧
    ∃ m, (⟨"error".toList, lg⟩ : JSONExtractor).extract content path = .error m := by
  by_cases htriv : path = [] ∨ path = ['$']
  · rw [JSONExtractor.extract] at hfail
    simp [JSONExtractor.extractF, htriv, isErr] at hfail
  · rw [extract_single_of_not_nested ⟨"error".toList, lg⟩ _ _ htriv hn] at hfail
    rw [extract_single_of_not_nested ⟨"ignore".toList, li⟩ _ _ htriv hn,
        extract_single_of_not_nested ⟨"empty".toList, le⟩ _ _ htriv hn,
        extract_single_of_not_nested ⟨"error".toList, lg⟩ _ _ htriv hn]
    cases hp : parse_json_safely content with
    | none =>
      simp only [JSONExtractor.extractSingle, hp]
      exact ⟨handle_ignore li _ _, handle_empty le _ _,
        parseFailMsg, handle_error lg _ _⟩
    | some d =>
      cases hw : extract_by_path d path with
      | none =>
        simp only [JSONExtractor.extractSingle, hp, hw]
        exact ⟨handle_ignore li _ _, handle_empty le _ _,
          pathFailMsg path, handle_error lg _ _⟩
      | some v =>
        simp only [JSONExtractor.extractSingle, hp, hw] at hfail
        cases v <;> simp [isErr] at hfail

theorem extract_failure_modes_c1_witness :
    (⟨"ignore".toList, true⟩ : JSONExtractor).extract "\x7b\"a\":1\x7d".toList
      "$.missing".toList = .ok "\x7b\"a\":1\x7d".toList ∧
    (⟨"empty".toList, true⟩ : JSONExtractor).extract "\x7b\"a\":1\x7d".toList
      "$.missing".toList = .ok [] :=
  ⟨(extract_failure_modes_c1 "\x7b\"a\":1\x7d".toList "$.missing".toList true true true
      (by decide) (by decide)).1,
   (extract_failure_modes_c1 "\x7b\"a\":1\x7d".toList "$.missing".toList true true true
      (by decide) (by decide)).2.1⟩

/-- Scalar (non-container) parsed JSON values: those `extract`
stringifies with `str()` instead of `json.dumps`. -/
def isScalar : Json → Bool
  | .obj _ => false
  | .arr _ => false
  | _ => true

/-- C5 counterexample: extracting a JSON `null` scalar yields Python's
`str(None)`, the string `"None"` — not the JSON text form `"null"` the
claim states (likewise booleans yield `"True"`/`"False"`). -/
theorem extract_scalar_form_c5_cex :
    (⟨"ignore".toList, true⟩ : JSONExtractor).extract "\x7b\"a\":null\x7d".toList
      "$.a".toList = .ok "None".toList ∧
    "None".toList ≠ "null".toList ∧
    (⟨"ignore".toList, true⟩ : JSONExtractor).extract "\x7b\"a\":true\x7d".toList
      "$.a".toList = .ok "True".toList ∧
    "True".toList ≠ "true".toList :=
  ⟨rfl, by decide, rfl, by decide⟩

/-- C5 (amended): for valid JSON content and a non-trivial `.$`-free path
resolving to a scalar, `extract` returns Python's `str()` form of the
scalar: `null` yields `"None"`, booleans yield `"True"`/`"False"` (the
Python forms, not the JSON text conventions `null`/`true`/`false`), and
an (integer) number yields its decimal string. -/
theorem extract_scalar_form_c5 (self : JSONExtractor) (content path : PyStr)
    (d v : Json)
    (htriv : ¬(path = [] ∨ path = ['$']))
    (hn : has_nested_extraction path = false)
    (hp : parseJson content = some d)
    (hw : extract_by_path d path = some v)
    (hs : isScalar v = true) :
    self.extract content path = .ok (pyStrOf v) ∧
    pyStrOf .null = "None".toList ∧
    pyStrOf (.bool true) = "True".toList ∧
    pyStrOf (.bool false) = "False".toList ∧
    (∀ n : Int, pyStrOf (.num n) = intRepr n) := by
  refine ⟨?_, rfl, rfl, rfl, fun _ => rfl⟩
  rw [extract_single_of_not_nested self _ _ htriv hn]
  have hps : parse_json_safely content = some d := by
    rw [parse_json_safely, hp]
  simp only [JSONExtractor.extractSingle, hps, hw]
  cases v with
  | obj o => simp [isScalar] at hs
  | arr l => simp [isScalar] at hs
  | null => rfl
  | bool b => cases b <;> rfl
  | num n => rfl
  | str s => rfl

theorem extract_scalar_form_c5_witness :
    (⟨"ignore".toList, true⟩ : JSONExtractor).extract "\x7b\"a\":7\x7d".toList
      "$.a".toList = .ok "7".toList :=
  (extract_scalar_form_c5 ⟨"ignore".toList, true⟩ "\x7b\"a\":7\x7d".toList "$.a".toList
    (Json.obj (.cons ['a'] (.num 7) .nil)) (.num 7)
    (by decide) (by decide) rfl rfl rfl).1

/-- C2: no exception escapes `compare` or `compare_batch`: every raised
failure inside `compare`'s body (extraction failure in `error` mode, an
exception while computing a mode's score, an unsupported mode) becomes a
returned `ComparisonResult`, and `compare_batch` returns one result per
input item. -/
theorem compare_no_escape_c2 (self : TextComparator) (b : BatchComparator)
    (expected actual : PyStr) (ct : ComparisonType) (ep ap : PyStr)
    (items : List BatchItem) :
    (∀ m, self.compareBody expected actual ct ep ap = .error m →
      self.compare expected actual ct ep ap = errResult ct expected actual m) ∧
    (b.compare_batch items ct).length = items.length := by
  constructor
  · intro m hm
    rw [TextComparator.compare, hm]
  · rw [BatchComparator.compare_batch]
    simp [List.length_map, List.enum_length]

def cmpErrW : TextComparator := { json_extractor := ⟨"error".toList, true⟩ }

theorem compare_no_escape_c2_witness :
    cmpErrW.compare "nojson".toList "b".toList .exact "$.x".toList "$".toList
      = errResult .exact "nojson".toList "b".toList parseFailMsg ∧
    ((⟨{}⟩ : BatchComparator).compare_batch [{}, {}] .exact).length = 2 :=
  ⟨(compare_no_escape_c2 cmpErrW ⟨{}⟩ "nojson".toList "b".toList .exact
      "$.x".toList "$".toList [{}, {}]).1 parseFailMsg rfl,
   (compare_no_escape_c2 cmpErrW ⟨{}⟩ "nojson".toList "b".toList .exact
      "$.x".toList "$".toList [{}, {}]).2⟩

/-- The `fuzzywuzzy.fuzz` contract: all four scorers return values in
`[0, 100]`. -/
def FuzzBounds (self : TextComparator) : Prop :=
  ∀ x y, (0 ≤ self.ratioFn x y ∧ self.ratioFn x y ≤ 100) ∧
    (0 ≤ self.pRatioFn x y ∧ self.pRatioFn x y ≤ 100) ∧
    (0 ≤ self.tSortRatioFn x y ∧ self.tSortRatioFn x y ≤ 100) ∧
    (0 ≤ self.tSetRatioFn x y ∧ self.tSetRatioFn x y ≤ 100)

/-- A well-behaved judge: whenever its reply parses to an object whose
`similarity_score` converts through `float()`, the raw value lies in the
`[0, 100]` band the prompt requests. -/
def JudgeBounds (self : TextComparator) : Prop :=
  ∀ g, self.llm_client = some g → ∀ p o q,
    parseJson (extract_json_from_markdown (g p).content) = some (.obj o) →
    pyFloat ((objGet "similarity_score".toList o).getD (.num 0)) = .ok q →
    0 ≤ q ∧ q ≤ 100

theorem exact_match_inv (s : TextComparator) (e a : PyStr) :
    (s.exact_match e a).error_message = none ∧
    (s.exact_match e a).expected = e ∧ (s.exact_match e a).actual = a ∧
    ((s.exact_match e a).similarity_score = 0 ∨
      (s.exact_match e a).similarity_score = 1) := by
  refine ⟨rfl, rfl, rfl, ?_⟩
  simp only [TextComparator.exact_match]
  split <;> simp

theorem fuzzy_match_inv (s : TextComparator) (e a : PyStr) :
    (s.fuzzy_match e a).error_message = none ∧
    (s.fuzzy_match e a).expected = e ∧ (s.fuzzy_match e a).actual = a :=
  ⟨rfl, rfl, rfl⟩

theorem fuzzy_match_score (s : TextComparator) (e a : PyStr) (hf : FuzzBounds s) :
    0 ≤ (s.fuzzy_match e a).similarity_score ∧
    (s.fuzzy_match e a).similarity_score ≤ 1 := by
  obtain ⟨h1, h2, h3, h4⟩ := hf (s.normalize_text e) (s.normalize_text a)
  simp only [TextComparator.fuzzy_match]
  constructor
  · have : (0 : ℚ) ≤ s.ratioFn (s.normalize_text e) (s.normalize_text a) / 100 :=
      div_nonneg h1.1 (by norm_num)
    calc (0 : ℚ) ≤ _ := this
      _ ≤ _ := le_max_of_le_left (le_max_of_le_left (le_max_left _ _))
  · refine max_le (max_le (max_le ?_ ?_) ?_) ?_ <;>
      rw [div_le_one (by norm_num : (0:ℚ) < 100)]
    · exact h1.2
    · exact h2.2
    · exact h3.2
    · exact h4.2

theorem contains_match_inv (s : TextComparator) (e a : PyStr) :
    (s.contains_match e a).error_message = none ∧
    (s.contains_match e a).expected = e ∧ (s.contains_match e a).actual = a ∧
    ((s.contains_match e a).similarity_score = 0 ∨
      (s.contains_match e a).similarity_score = 1) := by
  refine ⟨rfl, rfl, rfl, ?_⟩
  simp only [TextComparator.contains_match]
  split <;> simp

theorem json_match_inv (s : TextComparator) (e a : PyStr) :
    (s.json_match e a).expected = e ∧ (s.json_match e a).actual = a ∧
    ((s.json_match e a).similarity_score = 0 ∨
      (s.json_match e a).similarity_score = 1) ∧
    (∀ m, (s.json_match e a).error_message = some m →
      (s.json_match e a).is_match = false ∧
      (s.json_match e a).similarity_score = 0) := by
  rw [TextComparator.json_match]
  cases h1 : parseJson e with
  | none => simp [errResult]
  | some ej =>
    cases h2 : parseJson (extract_json_from_markdown a) with
    | none => simp [errResult]
    | some aj =>
      refine ⟨rfl, rfl, ?_, ?_⟩
      · simp only []
        split <;> simp
      · intro m hm
        simp at hm

theorem llm_match_inv (s : TextComparator) (e a : PyStr) :
    (s.llm_match e a).expected = e ∧ (s.llm_match e a).actual = a ∧
    (∀ m, (s.llm_match e a).error_message = some m →
      (s.llm_match e a).is_match = false ∧
      (s.llm_match e a).similarity_score = 0) := by
  rw [TextComparator.llm_match]
  cases hc : s.llm_client with
  | none => simp [errResult]
  | some gen =>
    simp only []
    split
    · simp [errResult]
    · split
      · simp [errResult]
      · split
        · split
          · refine ⟨rfl, rfl, ?_⟩
            intro m hm
            simp at hm
          · simp [errResult]
          · simp [errResult]
        · simp [errResult]

theorem llm_match_score (s : TextComparator) (e a : PyStr) (hj : JudgeBounds s) :
    0 ≤ (s.llm_match e a).similarity_score ∧
    (s.llm_match e a).similarity_score ≤ 1 := by
  rw [TextComparator.llm_match]
  cases hc : s.llm_client with
  | none => simp [errResult]
  | some gen =>
    simp only []
    by_cases he : pyTruthyStr (gen (llmPrompt e a)).error = true
    · simp [he, errResult]
    · rw [if_neg he]
      split
      · simp [errResult]
      · rename_i llmResult hp
        split
        · rename_i o
          split
          · rename_i q hq
            obtain ⟨hq0, hq100⟩ := hj gen hc (llmPrompt e a) o q hp hq
            constructor
            · show (0 : ℚ) ≤ q / 100
              exact div_nonneg hq0 (by norm_num)
            · show q / 100 ≤ (1 : ℚ)
              rw [div_le_one (by norm_num : (0:ℚ) < 100)]
              exact hq100
          · simp [errResult]
          · simp [errResult]
        · simp [errResult]

/-- Every run of `compare` either raised inside the body (and returned
the caught-error result) or produced a mode result with the bookkeeping
keys merged in. -/
theorem compare_cases (self : TextComparator) (e a : PyStr) (ct : ComparisonType)
    (ep ap : PyStr) :
    (∃ m, self.compareBody e a ct ep ap = .error m ∧
      self.compare e a ct ep ap = errResult ct e a m) ∨
    (∃ ee ea r0, self.json_extractor.extract e ep = .ok ee ∧
      self.json_extractor.extract a ap = .ok ea ∧
      self.dispatch ct ee ea = .ok r0 ∧
      self.compare e a ct ep ap =
        { r0 with details := some (mergeBookkeeping ep ap ee ea e a
            (r0.details.getD [])) }) := by
  cases h1 : self.json_extractor.extract e ep with
  | error m =>
    refine .inl ⟨m, ?_, ?_⟩
    · simp only [TextComparator.compareBody, h1]
    · simp only [TextComparator.compare, TextComparator.compareBody, h1]
  | ok ee1 =>
    cases h2 : self.json_extractor.extract a ap with
    | error m =>
      refine .inl ⟨m, ?_, ?_⟩
      · simp only [TextComparator.compareBody, h1, h2]
      · simp only [TextComparator.compare, TextComparator.compareBody, h1, h2]
    | ok ea1 =>
      cases h3 : self.dispatch ct ee1 ea1 with
      | error m =>
        refine .inl ⟨m, ?_, ?_⟩
        · simp only [TextComparator.compareBody, h1, h2, h3]
        · simp only [TextComparator.compare, TextComparator.compareBody, h1, h2, h3]
      | ok r0 =>
        refine .inr ⟨ee1, ea1, r0, rfl, rfl, h3, ?_⟩
        simp only [TextComparator.compare, TextComparator.compareBody, h1, h2, h3]

theorem dispatch_error_zero (self : TextComparator) (ct : ComparisonType)
    (ee ea : PyStr) (r0 : ComparisonResult) (m : PyStr)
    (hd : self.dispatch ct ee ea = .ok r0)
    (hm : r0.error_message = some m) :
    r0.is_match = false ∧ r0.similarity_score = 0 := by
  cases ct <;> simp only [TextComparator.dispatch, Except.ok.injEq] at hd
  case exact =>
    rw [← hd] at hm
    rw [(exact_match_inv self ee ea).1] at hm
    simp at hm
  case fuzzy =>
    rw [← hd] at hm
    rw [(fuzzy_match_inv self ee ea).1] at hm
    simp at hm
  case contains =>
    rw [← hd] at hm
    rw [(contains_match_inv self ee ea).1] at hm
    simp at hm
  case json =>
    rw [← hd] at hm ⊢
    exact (json_match_inv self ee ea).2.2.2 m hm
  case llm =>
    rw [← hd] at hm ⊢
    exact (llm_match_inv self ee ea).2.2 m hm
  case custom => exact absurd hd (by simp)

theorem compare_error_zero (self : TextComparator) (e a : PyStr)
    (ct : ComparisonType) (ep ap : PyStr) (m : PyStr)
    (hm : (self.compare e a ct ep ap).error_message = some m) :
    (self.compare e a ct ep ap).is_match = false ∧
    (self.compare e a ct ep ap).similarity_score = 0 := by
  rcases compare_cases self e a ct ep ap with ⟨m', _, hcq⟩ | ⟨ee, ea, r0, _, _, hd, hcq⟩
  · rw [hcq]
    exact ⟨rfl, rfl⟩
  · rw [hcq] at hm ⊢
    have hm' : r0.error_message = some m := hm
    have h := dispatch_error_zero self ct ee ea r0 m hd hm'
    exact ⟨h.1, h.2⟩

theorem compare_batch_fields (b : BatchComparator) (items : List BatchItem)
    (ct : ComparisonType) (r : ComparisonResult)
    (hr : r ∈ b.compare_batch items ct) :
    ∃ e' a', r.is_match
        = (b.comparator.compare e' a' ct "$".toList "$".toList).is_match ∧
      r.similarity_score
        = (b.comparator.compare e' a' ct "$".toList "$".toList).similarity_score ∧
      r.error_message
        = (b.comparator.compare e' a' ct "$".toList "$".toList).error_message ∧
      r.expected = (b.comparator.compare e' a' ct "$".toList "$".toList).expected ∧
      r.actual = (b.comparator.compare e' a' ct "$".toList "$".toList).actual := by
  rw [BatchComparator.compare_batch] at hr
  obtain ⟨⟨i, item⟩, hmem, rfl⟩ := List.mem_map.mp hr
  exact ⟨item.expected.getD [], item.actual.getD [], rfl, rfl, rfl, rfl, rfl⟩

/-- C4: every `ComparisonResult` produced by `TextComparator.compare` or
`BatchComparator.compare_batch` with `error_message` set also has
`is_match = false` and `similarity_score = 0`. -/
theorem error_result_zero_c4 (self : TextComparator) (b : BatchComparator)
    (e a : PyStr) (ct : ComparisonType) (ep ap : PyStr) (items : List BatchItem)
    (r : ComparisonResult) (m : PyStr)
    (hr : r = self.compare e a ct ep ap ∨ r ∈ b.compare_batch items ct)
    (hm : r.error_message = some m) :
    r.is_match = false ∧ r.similarity_score = 0 := by
  rcases hr with rfl | hmem
  · exact compare_error_zero self e a ct ep ap m hm
  · obtain ⟨e', a', h1, h2, h3, _, _⟩ := compare_batch_fields b items ct r hmem
    have h := compare_error_zero b.comparator e' a' ct "$".toList "$".toList m
      (h3 ▸ hm)
    exact ⟨h1.trans h.1, h2.trans h.2⟩

def cmpW : TextComparator := {}

theorem error_result_zero_c4_witness :
    (cmpW.compare "notjson".toList "\x7b\x7d".toList .json "$".toList "$".toList).is_match
      = false ∧
    (cmpW.compare "notjson".toList "\x7b\x7d".toList .json "$".toList
      "$".toList).similarity_score = 0 :=
  error_result_zero_c4 cmpW ⟨{}⟩ "notjson".toList "\x7b\x7d".toList .json "$".toList
    "$".toList [] _ "JSON解析错误".toList (Or.inl rfl) rfl

/-- C3: in SEMANTIC (LLM) comparison, when the judge's reply parses to a
JSON object carrying a numeric `similarity_score` `n`, the result has
`similarity_score = n / 100`, and `is_match` holds exactly when `n / 100`
is at least the comparator's own configured threshold; the rest of the
judge's reply object (any match opinion it contains) has no effect. -/
theorem llm_score_threshold_c3 (s : TextComparator) (gen : PyStr → LLMResponse)
    (e a : PyStr) (o : JsonObj) (n : Int)
    (hc : s.llm_client = some gen)
    (he : pyTruthyStr (gen (llmPrompt e a)).error = false)
    (hp : parseJson (extract_json_from_markdown (gen (llmPrompt e a)).content)
      = some (.obj o))
    (hs : objGet "similarity_score".toList o = some (.num n)) :
    (s.llm_match e a).similarity_score = (n : ℚ) / 100 ∧
    ((s.llm_match e a).is_match = true ↔ s.fuzzy_threshold ≤ (n : ℚ) / 100) := by
  rw [TextComparator.llm_match, hc]
  simp only []
  rw [if_neg (by simp [he])]
  simp only [hp, hs, Option.getD_some, pyFloat]
  exact ⟨trivial, decide_eq_true_iff⟩

def judgeW : PyStr → LLMResponse :=
  fun _ => { content := "\x7b\"similarity_score\": 80, \"reasoning\": \"ok\"\x7d".toList }

def cmpJ : TextComparator := { llm_client := some judgeW }

theorem llm_score_threshold_c3_witness :
    (cmpJ.llm_match "x".toList "y".toList).similarity_score
      = ((80 : Int) : ℚ) / 100 ∧
    ((cmpJ.llm_match "x".toList "y".toList).is_match = true ↔
      (8 / 10 : ℚ) ≤ ((80 : Int) : ℚ) / 100) :=
  llm_score_threshold_c3 cmpJ judgeW "x".toList "y".toList
    (JsonObj.cons "similarity_score".toList (.num 80)
      (.cons "reasoning".toList (.str "ok".toList) .nil))
    80 rfl rfl rfl rfl

theorem mergeBookkeeping_keys (ep ap ee ea e a : PyStr) (d : List (PyStr × DV)) :
    assocGet "expected_extract_path".toList (mergeBookkeeping ep ap ee ea e a d)
      = some (.dvStr ep) ∧
    assocGet "actual_extract_path".toList (mergeBookkeeping ep ap ee ea e a d)
      = some (.dvStr ap) ∧
    assocGet "extracted_expected".toList (mergeBookkeeping ep ap ee ea e a d)
      = some (.dvStr ee) ∧
    assocGet "extracted_actual".toList (mergeBookkeeping ep ap ee ea e a d)
      = some (.dvStr ea) ∧
    assocGet "original_expected".toList (mergeBookkeeping ep ap ee ea e a d)
      = some (.dvStr e) ∧
    assocGet "original_actual".toList (mergeBookkeeping ep ap ee ea e a d)
      = some (.dvStr a) := by
  unfold mergeBookkeeping
  refine ⟨?_, ?_, ?_, ?_, ?_, ?_⟩ <;>
    repeat
      first
      | rw [assocGet_updAssoc_self]
      | rw [assocGet_updAssoc_ne _ _ _ _ (by decide)]

/-- C6 counterexample: for the unsupported `CUSTOM` mode the top-level
exception handler returns a result whose `error_message` is set but
whose `details` is `None`, so it contains none of the bookkeeping keys. -/
theorem details_keys_c6_cex :
    (cmpW.compare "a".toList "b".toList .custom "$".toList "$".toList).details
      = none ∧
    (cmpW.compare "a".toList "b".toList .custom "$".toList
      "$".toList).error_message.isSome = true :=
  ⟨rfl, rfl⟩

/-- C6 (amended): every `ComparisonResult` produced through `compare`'s
normal path (its `try` body returning, which includes mode-level failures
such as JSON parse errors or LLM judge errors that set `error_message`)
carries the bookkeeping keys `expected_extract_path`,
`actual_extract_path`, `extracted_expected`, `extracted_actual` plus the
originals under `original_expected`/`original_actual`; results built by
the top-level exception handler (unsupported mode, or an extractor
configured to raise) instead have `details = None`
(`details_keys_c6_cex`). -/
theorem details_keys_c6 (self : TextComparator) (e a : PyStr)
    (ct : ComparisonType) (ep ap : PyStr) (r : ComparisonResult) (ee ea : PyStr)
    (he : self.json_extractor.extract e ep = .ok ee)
    (ha : self.json_extractor.extract a ap = .ok ea)
    (hb : self.compareBody e a ct ep ap = .ok r) :
    self.compare e a ct ep ap = r ∧
    ∃ d, r.details = some d ∧
      assocGet "expected_extract_path".toList d = some (.dvStr ep) ∧
      assocGet "actual_extract_path".toList d = some (.dvStr ap) ∧
      assocGet "extracted_expected".toList d = some (.dvStr ee) ∧
      assocGet "extracted_actual".toList d = some (.dvStr ea) ∧
      assocGet "original_expected".toList d = some (.dvStr e) ∧
      assocGet "original_actual".toList d = some (.dvStr a) := by
  have hcq : self.compare e a ct ep ap = r := by
    rw [TextComparator.compare, hb]
  refine ⟨hcq, ?_⟩
  rcases compare_cases self e a ct ep ap with ⟨m, hbe, _⟩ | ⟨ee', ea', r0, he', ha', hd, hcq'⟩
  · rw [hbe] at hb
    cases hb
  · have hee : ee' = ee := by
      rw [he] at he'
      cases he'
      rfl
    have hea : ea' = ea := by
      rw [ha] at ha'
      cases ha'
      rfl
    rw [hee, hea] at hcq'
    have hr : r = { r0 with details := some (mergeBookkeeping ep ap ee ea e a
        (r0.details.getD [])) } := by
      rw [← hcq, hcq']
    subst hr
    exact ⟨_, rfl, mergeBookkeeping_keys ep ap ee ea e a _⟩

def c6WitR : ComparisonResult :=
  cmpW.compare "a".toList "b".toList .exact "$".toList "$".toList

theorem details_keys_c6_witness :
    ∃ d, c6WitR.details = some d ∧
      assocGet "expected_extract_path".toList d = some (.dvStr "$".toList) ∧
      assocGet "original_expected".toList d = some (.dvStr "a".toList) := by
  obtain ⟨_, d, hd, h1, _, _, _, h5, _⟩ :=
    details_keys_c6 cmpW "a".toList "b".toList .exact "$".toList "$".toList
      c6WitR "a".toList "b".toList rfl rfl rfl
  exact ⟨d, hd, h1, h5⟩

theorem dispatch_fields (self : TextComparator) (ct : ComparisonType)
    (ee ea : PyStr) (r0 : ComparisonResult)
    (hd : self.dispatch ct ee ea = .ok r0) :
    r0.expected = ee ∧ r0.actual = ea := by
  cases ct <;> simp only [TextComparator.dispatch, Except.ok.injEq] at hd
  case exact =>
    rw [← hd]
    exact ⟨(exact_match_inv self ee ea).2.1, (exact_match_inv self ee ea).2.2.1⟩
  case fuzzy =>
    rw [← hd]
    exact ⟨(fuzzy_match_inv self ee ea).2.1, (fuzzy_match_inv self ee ea).2.2⟩
  case contains =>
    rw [← hd]
    exact ⟨(contains_match_inv self ee ea).2.1,
      (contains_match_inv self ee ea).2.2.1⟩
  case json =>
    rw [← hd]
    exact ⟨(json_match_inv self ee ea).1, (json_match_inv self ee ea).2.1⟩
  case llm =>
    rw [← hd]
    exact ⟨(llm_match_inv self ee ea).1, (llm_match_inv self ee ea).2.1⟩
  case custom => exact absurd hd (by simp)

/-- C7 counterexample: with extraction paths `$.a` on `{"a":1}`, the
returned result's `expected` field holds the extracted string `"1"`, not
the original pre-extraction argument. -/
theorem result_fields_c7_cex :
    (cmpW.compare "\x7b\"a\":1\x7d".toList "\x7b\"a\":1\x7d".toList .exact "$.a".toList
      "$.a".toList).expected = "1".toList ∧
    "1".toList ≠ "\x7b\"a\":1\x7d".toList :=
  ⟨rfl, by decide⟩

/-- C7 (amended): on `compare`'s normal path the returned result's
`expected`/`actual` fields hold the *extracted* strings; the original
pre-extraction arguments are preserved only under
`original_expected`/`original_actual` in `details` — and in the
`expected`/`actual` fields of the result built by the top-level
exception handler. -/
theorem result_fields_c7 (self : TextComparator) (e a : PyStr)
    (ct : ComparisonType) (ep ap : PyStr) (ee ea : PyStr)
    (he : self.json_extractor.extract e ep = .ok ee)
    (ha : self.json_extractor.extract a ap = .ok ea) :
    (∀ r, self.compareBody e a ct ep ap = .ok r →
      r.expected = ee ∧ r.actual = ea ∧
      ∃ d, r.details = some d ∧
        assocGet "original_expected".toList d = some (.dvStr e) ∧
        assocGet "original_actual".toList d = some (.dvStr a)) ∧
    (∀ m, self.compareBody e a ct ep ap = .error m →
      (self.compare e a ct ep ap).expected = e ∧
      (self.compare e a ct ep ap).actual = a) := by
  constructor
  · intro r hb
    rcases compare_cases self e a ct ep ap with
      ⟨m, hbe, _⟩ | ⟨ee', ea', r0, he', ha', hd, hcq'⟩
    · rw [hbe] at hb
      cases hb
    · have hcq : self.compare e a ct ep ap = r := by
        rw [TextComparator.compare, hb]
      have hee : ee' = ee := by
        rw [he] at he'
        cases he'
        rfl
      have hea : ea' = ea := by
        rw [ha] at ha'
        cases ha'
        rfl
      rw [hee, hea] at hcq' hd
      have hr : r = { r0 with details := some (mergeBookkeeping ep ap ee ea e a
          (r0.details.getD [])) } := by
        rw [← hcq, hcq']
      subst hr
      obtain ⟨hex, hac⟩ := dispatch_fields self ct ee ea r0 hd
      exact ⟨hex, hac, _, rfl,
        (mergeBookkeeping_keys ep ap ee ea e a _).2.2.2.2.1,
        (mergeBookkeeping_keys ep ap ee ea e a _).2.2.2.2.2⟩
  · intro m hm
    rw [TextComparator.compare, hm]
    exact ⟨rfl, rfl⟩

def c7WitR : ComparisonResult :=
  cmpW.compare "\x7b\"a\":1\x7d".toList "\x7b\"a\":2\x7d".toList .exact "$.a".toList
    "$.a".toList

theorem result_fields_c7_witness :
    c7WitR.expected = "1".toList ∧ c7WitR.actual = "2".toList := by
  obtain ⟨h1, h2, _⟩ :=
    (result_fields_c7 cmpW "\x7b\"a\":1\x7d".toList "\x7b\"a\":2\x7d".toList .exact
      "$.a".toList "$.a".toList "1".toList "2".toList rfl rfl).1 c7WitR rfl
  exact ⟨h1, h2⟩

def judgeOver : PyStr → LLMResponse :=
  fun _ => { content := "\x7b\"similarity_score\": 150, \"reasoning\": \"hi\"\x7d".toList }

def cmpOver : TextComparator := { llm_client := some judgeOver }

/-- C8 counterexample: a judge reply whose raw `similarity_score` is 150
produces `similarity_score = 150 / 100 = 1.5`, outside `[0, 1]` — the
code divides by 100 without clamping. -/
theorem similarity_unit_c8_cex :
    1 < (cmpOver.compare "x".toList "y".toList .llm "$".toList
      "$".toList).similarity_score := by
  have h : (cmpOver.compare "x".toList "y".toList .llm "$".toList
      "$".toList).similarity_score = ((150 : Int) : ℚ) / 100 := rfl
  rw [h]
  norm_num

/-- C8 (amended): every result of `compare` has `similarity_score` in
`[0, 1]` in the non-LLM modes (given the `fuzzywuzzy` scorers' `[0, 100]`
contract), and in LLM mode whenever the judge's raw score lies in
`[0, 100]`; a raw judge score above 100 is passed through unclamped and
yields a score above 1 (`similarity_unit_c8_cex`). -/
theorem similarity_unit_c8 (self : TextComparator) (e a : PyStr)
    (ct : ComparisonType) (ep ap : PyStr)
    (hf : FuzzBounds self) (hj : JudgeBounds self) :
    0 ≤ (self.compare e a ct ep ap).similarity_score ∧
    (self.compare e a ct ep ap).similarity_score ≤ 1 := by
  rcases compare_cases self e a ct ep ap with
    ⟨m, _, hcq⟩ | ⟨ee, ea, r0, _, _, hd, hcq⟩
  · rw [hcq]
    constructor
    · show (0 : ℚ) ≤ 0
      norm_num
    · show (0 : ℚ) ≤ 1
      norm_num
  · rw [hcq]
    have hb : 0 ≤ r0.similarity_score ∧ r0.similarity_score ≤ 1 := by
      cases ct <;> simp only [TextComparator.dispatch, Except.ok.injEq] at hd
      case exact =>
        rw [← hd]
        rcases (exact_match_inv self ee ea).2.2.2 with h0 | h1
        · rw [h0]
          constructor <;> norm_num
        · rw [h1]
          constructor <;> norm_num
      case fuzzy =>
        rw [← hd]
        exact fuzzy_match_score self ee ea hf
      case contains =>
        rw [← hd]
        rcases (contains_match_inv self ee ea).2.2.2 with h0 | h1
        · rw [h0]
          constructor <;> norm_num
        · rw [h1]
          constructor <;> norm_num
      case json =>
        rw [← hd]
        rcases (json_match_inv self ee ea).2.2.1 with h0 | h1
        · rw [h0]
          constructor <;> norm_num
        · rw [h1]
          constructor <;> norm_num
      case llm =>
        rw [← hd]
        exact llm_match_score self ee ea hj
      case custom => exact absurd hd (by simp)
    exact hb

theorem similarity_unit_c8_witness :
    0 ≤ (cmpW.compare "a".toList "b".toList .exact "$".toList
      "$".toList).similarity_score ∧
    (cmpW.compare "a".toList "b".toList .exact "$".toList
      "$".toList).similarity_score ≤ 1 :=
  similarity_unit_c8 cmpW "a".toList "b".toList .exact "$".toList "$".toList
    (fun _ _ => ⟨⟨le_refl 0, show (0:ℚ) ≤ 100 by norm_num⟩,
      ⟨le_refl 0, show (0:ℚ) ≤ 100 by norm_num⟩,
      ⟨le_refl 0, show (0:ℚ) ≤ 100 by norm_num⟩,
      ⟨le_refl 0, show (0:ℚ) ≤ 100 by norm_num⟩⟩)
    (fun g h => nomatch h)
